import Mathlib

/-!
# Gateway routing and registry lifecycle of `micro_service`

A shallow embedding of the three Go programs of the repository

* `gateway/main.go`        : `reverseProxy`, `main`
* `user-service/main.go`   : `registerServiceWithConsul`, `main`
* `product-service/main.go`: `registerServiceWithConsul`, `main`

The programs are thin compositions of library calls (`net/url`, `net/http`,
`net/http/httputil`, `gin`, the Consul agent API).  The library operations
they call are modelled here after their behaviour in current Go and gin
releases, each in its own section: URL parsing, the HTTP server between a
request it has read and its handler, the transport with its connection pool
and retries, the reverse proxy, the router.  The functions of the repository
itself are transcribed statement by statement on top of them.
-/

namespace MicroService

/-! ## String helpers (Go `strings`) -/

namespace Str

/-- Go `strings.HasPrefix s p`. -/
def hasPrefix (s p : String) : Bool := p.data.isPrefixOf s.data

/-- Go `strings.HasSuffix s p`. -/
def hasSuffix (s p : String) : Bool := p.data.reverse.isPrefixOf s.data.reverse

/-- Go `strings.Cut` on a one-character separator: the text before the first
separator and, when there is a separator, the text after it. -/
def cut (sep : Char) : List Char → List Char × Option (List Char)
  | [] => ([], none)
  | c :: cs =>
    if c = sep then ([], some cs)
    else ((c :: (cut sep cs).1), (cut sep cs).2)

/-- Split at the last separator (Go `strings.LastIndex` followed by slicing). -/
def cutLast (sep : Char) : List Char → Option (List Char × List Char)
  | [] => none
  | c :: cs =>
    match cutLast sep cs with
    | some (a, b) => some (c :: a, b)
    | none => if c = sep then some ([], cs) else none

/-- Go `strings.Split s ","`. -/
def splitComma : List Char → List (List Char)
  | [] => [[]]
  | c :: cs =>
    match splitComma cs with
    | [] => [[c]]
    | w :: ws => if c = ',' then [] :: w :: ws else (c :: w) :: ws

/-- The ASCII white space `textproto.TrimString` removes. -/
def isASCIISpace (c : Char) : Bool := c = ' ' || c = '\t' || c = '\n' || c = '\r'

/-- Go `textproto.TrimString`. -/
def trim (s : List Char) : List Char :=
  ((s.dropWhile isASCIISpace).reverse.dropWhile isASCIISpace).reverse

/-- Go `strconv.Atoi` on an unsigned decimal numeral. -/
def atoi (s : List Char) : Option Nat :=
  if s = [] then none
  else s.foldl (fun acc c => acc.bind fun n => if c.isDigit then some (10 * n + (c.toNat - 48)) else none)
    (some 0)

end Str

/-! ## `net/url` -/

/-- Go `url.URL`, the fields the programs read or write.  The field
`Opaque_` is Go's `Opaque`.  `RawPath`, the escaped spelling a URL may record
next to `Path`, is not modelled: it spells the same path. -/
structure URL where
  Scheme : String := ""
  Opaque_ : String := ""
  Host : String := ""
  Path : String := ""
  RawQuery : String := ""
deriving DecidableEq, Repr

namespace URL

/-- Go `stringContainsCTLByte`. -/
def containsCTL (s : List Char) : Bool := s.any fun c => c.toNat < 32 || c.toNat = 127

/-- Go `getScheme`: `some (scheme, rest)`, or `none` for
"missing protocol scheme". The first argument is the text already read. -/
def getScheme : List Char → List Char → Option (List Char × List Char)
  | seen, [] => some ([], seen.reverse)
  | seen, c :: cs =>
    if c.isAlpha then getScheme (c :: seen) cs
    else if c.isDigit || c = '+' || c = '-' || c = '.' then
      (if seen = [] then some ([], c :: cs) else getScheme (c :: seen) cs)
    else if c = ':' then
      (if seen = [] then none else some (seen.reverse, cs))
    else some ([], seen.reverse ++ c :: cs)

/-- Go `validOptionalPort`: empty, or a colon followed by digits only. -/
def validOptionalPort : List Char → Bool
  | [] => true
  | c :: cs => c = ':' && cs.all Char.isDigit

/-- The characters `unescape` accepts unescaped in a host: letters, digits,
the marks `shouldEscape` exempts for a host, and everything outside ASCII. -/
def validHostChar (c : Char) : Bool :=
  c.toNat ≥ 128 || c.isAlphanum || "-_.~!$&'()*+,;=:[]<>\"".data.contains c

/-- Go `validUserinfo`. -/
def validUserinfo (s : List Char) : Bool :=
  s.all fun c => c.isAlphanum || "-._:~!$&'()*+,;=%@".data.contains c

/-- Go `parseHost`.  Behind an IP literal in brackets, and behind the last
colon of any other host, stands an optional port; a host that is not an IP
literal has no other colon; every character must be one a host may hold.
(Percent escapes in a host are outside this model and count as invalid.) -/
def parseHost (host : List Char) : Except String String :=
  if ['['].isPrefixOf host then
    match Str.cutLast ']' host with
    | none => .error "missing ']' in host"
    | some (literal, colonPort) =>
      if !validOptionalPort colonPort then .error "invalid port after host"
      else if !(literal.all fun c => validHostChar c || c = '%') then
        .error "invalid character in host name"
      else .ok (String.mk host)
  else
    match Str.cutLast ':' host with
    | some (name, port) =>
      if !validOptionalPort (':' :: port) then .error "invalid port after host"
      else if name.contains ':' then .error "invalid character \":\" in host name"
      else if !(name.all validHostChar) then .error "invalid character in host name"
      else .ok (String.mk host)
    | none =>
      if !(host.all validHostChar) then .error "invalid character in host name"
      else .ok (String.mk host)

/-- Go `parseAuthority`, the host it returns: the text behind the last `@` is
the host, the text before it must be valid user information (which the model
of `URL` does not keep). -/
def parseAuthority (authority : List Char) : Except String String :=
  match Str.cutLast '@' authority with
  | none => parseHost authority
  | some (userinfo, host) =>
    match parseHost host with
    | .error e => .error e
    | .ok h => if validUserinfo userinfo then .ok h else .error "net/url: invalid userinfo"

/-- Go `url.Parse`, for URLs without percent escapes (every target this
repository configures is one).  The error cases are those of `parse`: a
control character, a missing scheme, a colon in the first segment of a
relative path, an invalid authority. -/
def Parse (rawURL : String) : Except String URL :=
  let u := (Str.cut '#' rawURL.data).1
  if containsCTL u then .error "net/url: invalid control character in URL"
  else if u = ['*'] then .ok { Path := "*" }
  else
    match getScheme [] u with
    | none => .error "missing protocol scheme"
    | some (scheme, rest) =>
      let scheme := scheme.map Char.toLower
      let q := Str.cut '?' rest
      let rest := q.1
      let rawQuery := q.2.getD []
      if !(['/'].isPrefixOf rest) && scheme ≠ [] then
        .ok { Scheme := String.mk scheme, Opaque_ := String.mk rest, RawQuery := String.mk rawQuery }
      else if !(['/'].isPrefixOf rest) && (Str.cut '/' rest).1.contains ':' then
        .error "first path segment in URL cannot contain colon"
      else if (scheme ≠ [] || !(['/', '/', '/'].isPrefixOf rest)) && ['/', '/'].isPrefixOf rest then
        let authority := (rest.drop 2).takeWhile (· ≠ '/')
        let path := (rest.drop 2).dropWhile (· ≠ '/')
        match parseAuthority authority with
        | .error e => .error e
        | .ok host =>
          .ok { Scheme := String.mk scheme, Host := host, Path := String.mk path,
                RawQuery := String.mk rawQuery }
      else
        .ok { Scheme := String.mk scheme, Path := String.mk rest, RawQuery := String.mk rawQuery }

/-- Go `(*URL).Hostname` and `(*URL).Port` together, the port as a number. -/
def hostPort (u : URL) : Option (String × Nat) :=
  match Str.cutLast ':' u.Host.data with
  | some (h, p) => (Str.atoi p).map fun n => (String.mk h, n)
  | none => none

end URL

/-! ## `net/http` -/

/-- Go `http.Header`: a map from canonical key to values, as an association
list read through `Header.values`. -/
abbrev Header := List (String × List String)

/-- The bytes `textproto` accepts in a header field name. -/
def validHeaderFieldByte (c : Char) : Bool :=
  c.isAlphanum || "!#$%&'*+-.^_`|~".data.contains c

/-- Capitalise the first letter and every letter after a hyphen, lower the rest. -/
def canonicalChars : Bool → List Char → List Char
  | _, [] => []
  | up, c :: cs => (if up then c.toUpper else c.toLower) :: canonicalChars (c = '-') cs

/-- Go `textproto.CanonicalMIMEHeaderKey`: a key with a byte that is not valid
in a field name is returned unchanged. -/
def CanonicalMIMEHeaderKey (s : String) : String :=
  if s.data.all validHeaderFieldByte then String.mk (canonicalChars true s.data) else s

namespace Header

/-- The map lookup `h[key]`. -/
def values (h : Header) (key : String) : Option (List String) :=
  (h.find? fun kv => kv.1 = key).map (·.2)

/-- Go `Header.Del`. -/
def Del (h : Header) (key : String) : Header :=
  h.filter fun kv => kv.1 ≠ CanonicalMIMEHeaderKey key

/-- Go `Header.Set`. -/
def Set (h : Header) (key value : String) : Header :=
  (CanonicalMIMEHeaderKey key, [value]) :: Del h key

/-- Go `Header.get`: the first value of the key as written, or the empty
string. -/
def get (h : Header) (key : String) : String :=
  ((h.values key).bind List.head?).getD ""

/-- Go `Header.Get`: the first value of the canonical key, or the empty
string. -/
def Get (h : Header) (key : String) : String := get h (CanonicalMIMEHeaderKey key)

/-- Go `Header.has`. -/
def has (h : Header) (key : String) : Bool := (h.values key).isSome

end Header

/-- Go `http.Request`, as the server has read it from a connection without
error (`conn.readRequest`): the method is a token, the header keys are
canonical and `Host` is not among them, the path is empty, `*`, or begins
with a slash.  `Body` is `none` for a request without body (`ContentLength`
0, `http.NoBody`). -/
structure Request where
  Method : String
  URL : URL
  Host : String := ""
  Header : Header := []
  Body : Option String := none
  RemoteAddr : String := ""
deriving DecidableEq, Repr

/-- What is written to an `http.ResponseWriter`: status, the headers the code
sets, body. -/
structure Response where
  StatusCode : Nat
  Header : Header := []
  Body : String := ""
deriving DecidableEq, Repr

/-- Go `net.SplitHostPort`, the host part: the text before the last colon,
without the brackets of an IPv6 literal; `none` when the address has no port
or an unbracketed host with a colon. -/
def SplitHostPort (addr : String) : Option String :=
  match Str.cutLast ':' addr.data with
  | none => none
  | some (h, _) =>
    if ['['].isPrefixOf h then
      (if [']'].isPrefixOf h.reverse then some (String.mk (h.drop 1).dropLast) else none)
    else if h.contains ':' then none
    else some (String.mk h)

namespace http

/-- How `persistConn.roundTrip` can fail, as far as
`persistConn.shouldRetryRequest` tells the failures apart. -/
inductive ConnError
  /-- `nothingWrittenError`: the connection failed before a byte was written -/
  | nothingWritten
  /-- `transportReadFromServerError`: reading the first response byte failed -/
  | readFromServer
  /-- `errServerClosedIdle`: the server had closed the idle connection -/
  | serverClosedIdle
  /-- any other error -/
  | other
deriving DecidableEq, Repr

/-- One connection to a backend: the outcome of `persistConn.roundTrip` on it. -/
abbrev PersistConn := Request → Except ConnError Response

end http

/-- What lies outside the programs.  For the gateway's transport
(`http.DefaultTransport`): `idle`, the kept-alive connections of its pool in
the order `getConn` hands them out, and `dial`, the outcome of opening a new
connection (an error, or the new connection's outcome for the request).  For
a backend: `domain`, the CRUD handlers by name. -/
structure World where
  idle : List http.PersistConn := []
  dial : Request → Except String (Except http.ConnError Response)
  domain : String → Request → Response

/-- One served request: the response written to the client, the requests the
handler handed to the transport (`RoundTrip` calls), in order, and the
number of connections on which the transport tried them. -/
structure Exchange where
  response : Response
  upstream : List Request := []
  tries : Nat := 0

namespace http

/-- Go `isTokenBoundary`. -/
def isTokenBoundary (c : Char) : Bool := c = ' ' || c = ',' || c = '\t'

/-- ASCII case-insensitive equality (Go `ascii.EqualFold`; also what
`strings.EqualFold` decides against a token without the letters k and s). -/
def equalFold (a b : List Char) : Bool := a.map Char.toLower = b.map Char.toLower

/-- The scan of Go `hasToken`: the token stands at the head of the text, which
begins at a boundary when the flag is set, and a boundary or the end follows
it; or it stands further on. -/
def hasTokenFrom (token : List Char) : Bool → List Char → Bool
  | _, [] => false
  | atBoundary, c :: cs =>
    (atBoundary && equalFold ((c :: cs).take token.length) token &&
        (((c :: cs).drop token.length).head?.map isTokenBoundary).getD true) ||
      hasTokenFrom token (isTokenBoundary c) cs

/-- Go `hasToken`: the token appears in the value, ASCII case-insensitive,
between boundaries (space, comma, tab) or the ends. -/
def hasToken (v token : String) : Bool :=
  token ≠ "" && hasTokenFrom token.data true v.data

/-- Go `(*Request).expectsContinue`. -/
def expectsContinue (r : Request) : Bool := hasToken (r.Header.get "Expect") "100-continue"

/-- The `Expect` test of `conn.serve`: the header is there and does not ask for
`100-continue`. -/
def expectationFailed (r : Request) : Bool :=
  !expectsContinue r && r.Header.get "Expect" ≠ ""

/-- What the server answers by itself, without calling its handler:
`conn.serve` answers an unsupported `Expect` header with 417 Expectation
Failed (`sendExpectationFailed`), and `serverHandler.ServeHTTP` answers
`OPTIONS *` through `globalOptionsHandler` with an empty 200.  (The request
target `*`, and no other, is read as the path `*`.) -/
def intercept (r : Request) : Option Response :=
  if expectationFailed r then
    some { StatusCode := 417, Header := [("Connection", ["close"])] }
  else if r.URL.Path = "*" ∧ r.Method = "OPTIONS" then
    some { StatusCode := 200, Header := [("Content-Length", ["0"])] }
  else none

/-- The server behind `r.Run` (`http.ListenAndServe`), for one request it has
read: answer it itself, or call the handler. -/
def serve (handler : Request → Exchange) (r : Request) : Exchange :=
  match intercept r with
  | some res => { response := res }
  | none => handler r

/-- Go `(*Request).isReplayable`: no body, and an idempotent method or an
idempotency key. -/
def isReplayable (r : Request) : Bool :=
  r.Body = none &&
    (r.Method = "" || r.Method = "GET" || r.Method = "HEAD" || r.Method = "OPTIONS" ||
      r.Method = "TRACE" || r.Header.has "Idempotency-Key" || r.Header.has "X-Idempotency-Key")

/-- Go `(*persistConn).shouldRetryRequest` on a reused connection, for a
request without `GetBody` (a proxied server request has none). -/
def shouldRetryRequest (r : Request) : ConnError → Bool
  | .nothingWritten => r.Body = none
  | .readFromServer => isReplayable r
  | .serverClosedIdle => isReplayable r
  | .other => false

/-- Go `(*Transport).roundTrip`: the loop that gets a connection, tries the
request on it and, when a reused connection fails in a way
`shouldRetryRequest` accepts, starts over with another connection.  A new
connection is not reused, so its failure is final.  The result comes with the
number of passes of the loop.  (The checks `roundTrip` makes first, of the
method and the header fields, pass for every request the server has read.) -/
def roundTrip (dial : Request → Except String (Except ConnError Response)) :
    List PersistConn → Request → Except String Response × Nat
  | [], r =>
    match dial r with
    | .error err => (.error err, 1)
    | .ok (.error _) => (.error "net/http: connection failed", 1)
    | .ok (.ok res) => (.ok res, 1)
  | pconn :: idle, r =>
    match pconn r with
    | .ok res => (.ok res, 1)
    | .error err =>
      if shouldRetryRequest r err then ((roundTrip dial idle r).1, (roundTrip dial idle r).2 + 1)
      else (.error "net/http: connection failed", 1)

end http

/-! ## `net/http/httputil` -/

namespace httputil

/-- Go `singleJoiningSlash`. -/
def singleJoiningSlash (a b : String) : String :=
  let aslash := Str.hasSuffix a "/"
  let bslash := Str.hasPrefix b "/"
  if aslash && bslash then a ++ String.mk (b.data.drop 1)
  else if !aslash && !bslash then a ++ "/" ++ b
  else a ++ b

/-- Go `joinURLPath`, the `Path` it returns.  (When a URL records a `RawPath`
the real function decides the joining slash on the escaped spellings; for a
target without path, as `main` configures, it returns the inbound `Path`
either way.) -/
def joinURLPath (a b : URL) : String := singleJoiningSlash a.Path b.Path

/-- Go `rewriteRequestURL`, the director `NewSingleHostReverseProxy target`
installs. -/
def rewriteRequestURL (req : Request) (target : URL) : Request :=
  { req with
    URL := { req.URL with
      Scheme := target.Scheme
      Host := target.Host
      Path := joinURLPath target req.URL
      RawQuery :=
        if target.RawQuery = "" ∨ req.URL.RawQuery = "" then target.RawQuery ++ req.URL.RawQuery
        else target.RawQuery ++ "&" ++ req.URL.RawQuery } }

/-- Go `hopHeaders`. -/
def hopHeaders : List String :=
  ["Connection", "Proxy-Connection", "Keep-Alive", "Proxy-Authenticate", "Proxy-Authorization",
   "Te", "Trailer", "Transfer-Encoding", "Upgrade"]

/-- The header names listed in the values of `Connection`, trimmed, the empty
ones dropped. -/
def connectionTokens (h : Header) : List String :=
  ((h.values "Connection").getD []).flatMap fun f =>
    (((Str.splitComma f.data).map Str.trim).filter fun sf => sf ≠ []).map String.mk

/-- Go `removeHopByHopHeaders`: delete the headers `Connection` lists, then
the fixed hop-by-hop headers. -/
def removeHopByHopHeaders (h : Header) : Header :=
  hopHeaders.foldl Header.Del ((connectionTokens h).foldl Header.Del h)

/-- The `X-Forwarded-For` step of `ReverseProxy.ServeHTTP`: append the client
address to what is there, unless the remote address has no host part or the
key is present with no value. -/
def forwardedFor (remoteAddr : String) (h : Header) : Header :=
  match SplitHostPort remoteAddr with
  | none => h
  | some clientIP =>
    match h.values "X-Forwarded-For" with
    | some [] => h
    | some prior => h.Set "X-Forwarded-For" (", ".intercalate prior ++ ", " ++ clientIP)
    | none => h.Set "X-Forwarded-For" clientIP

/-- The `User-Agent` step of `ReverseProxy.ServeHTTP`: an absent header is set
to the empty string so that the transport adds no default. -/
def userAgent (h : Header) : Header :=
  match h.values "User-Agent" with
  | some _ => h
  | none => h.Set "User-Agent" ""

/-- Go `httpguts.trimOWS`. -/
def trimOWS (s : List Char) : List Char :=
  ((s.dropWhile fun c => c = ' ' || c = '\t').reverse.dropWhile fun c => c = ' ' || c = '\t').reverse

/-- Go `httpguts.tokenEqual`: equal ignoring ASCII case, ASCII only. -/
def tokenEqual (t1 t2 : List Char) : Bool :=
  t1.all (fun c => c.toNat < 128) && http.equalFold t1 t2

/-- Go `httpguts.HeaderValuesContainsToken`. -/
def HeaderValuesContainsToken (values : List String) (token : String) : Bool :=
  values.any fun v => (Str.splitComma v.data).any fun part => tokenEqual (trimOWS part) token.data

/-- Go `upgradeType`: the value of `Upgrade` when `Connection` names the token
`Upgrade`, otherwise empty. -/
def upgradeType (h : Header) : String :=
  if HeaderValuesContainsToken ((h.values "Connection").getD []) "Upgrade" then h.Get "Upgrade"
  else ""

/-- Go `ascii.IsPrint`. -/
def IsPrint (s : String) : Bool := s.data.all fun c => 32 ≤ c.toNat && c.toNat ≤ 126

/-- The header steps of `ReverseProxy.ServeHTTP` between the director and the
round trip, on the header `h` the director left, for the inbound request
`req`: strip the hop-by-hop headers; announce trailers when the inbound
request did; put back `Connection: Upgrade` and `Upgrade` for a protocol
switch; append the client address to `X-Forwarded-For`; set an absent
`User-Agent` empty. -/
def outboundHeader (req : Request) (h : Header) : Header :=
  let reqUpType := upgradeType h
  let h1 := removeHopByHopHeaders h
  let h2 :=
    if HeaderValuesContainsToken ((req.Header.values "Te").getD []) "trailers" then
      h1.Set "Te" "trailers"
    else h1
  let h3 := if reqUpType ≠ "" then (h2.Set "Connection" "Upgrade").Set "Upgrade" reqUpType else h2
  userAgent (forwardedFor req.RemoteAddr h3)

/-- The request `ReverseProxy.ServeHTTP` hands to the transport: the clone of
the inbound request after the director, with the outbound headers. -/
def outbound (director : Request → Request) (req : Request) : Request :=
  let outreq := director req
  { outreq with Header := outboundHeader req outreq.Header }

/-- Go `(*ReverseProxy).ServeHTTP` with the default error handler and the
default transport.  A request for a protocol switch whose type is not
printable ASCII is answered with 502 before any round trip.  Otherwise the
outbound request makes one round trip: its error is answered with 502 Bad
Gateway; a 101 response is passed on with its headers when it switches to the
protocol asked for (the tunnel that follows is not modelled) and answered with
502 when not; any other response is copied to the client without its
hop-by-hop headers. -/
def ServeHTTP (director : Request → Request) (w : World) (req : Request) : Exchange :=
  let reqUpType := upgradeType (director req).Header
  if !IsPrint reqUpType then { response := { StatusCode := 502 } }
  else
    let outreq := outbound director req
    match http.roundTrip w.dial w.idle outreq with
    | (.error _, n) => { response := { StatusCode := 502 }, upstream := [outreq], tries := n }
    | (.ok res, n) =>
      if res.StatusCode = 101 then
        if http.equalFold reqUpType.data (upgradeType res.Header).data then
          { response := { StatusCode := 101, Header := res.Header }, upstream := [outreq],
            tries := n }
        else { response := { StatusCode := 502 }, upstream := [outreq], tries := n }
      else
        { response := { res with Header := removeHopByHopHeaders res.Header },
          upstream := [outreq], tries := n }

end httputil

/-! ## `gin` -/

namespace gin

/-- Go `gin.H` with string values. -/
abbrev H := List (String × String)

/-- The handlers the three programs register, as data. -/
inductive HandlerFunc
  /-- the closure `reverseProxy` returns, over its parsed target -/
  | proxy (targetURL : URL)
  /-- a handler whose body is `c.JSON(code, obj)` -/
  | json (code : Nat) (obj : H)
  /-- a CRUD handler of a backend, named by method and path -/
  | domain (name : String)
deriving DecidableEq, Repr

/-- Go `encoding/json` of a `gin.H` whose keys and values need no escaping. -/
def renderJSON (obj : H) : String :=
  "\x7b" ++ ",".intercalate (obj.map fun kv => "\"" ++ kv.1 ++ "\":\"" ++ kv.2 ++ "\"") ++ "\x7d"

/-- Go `c.JSON(code, obj)`. -/
def JSON (code : Nat) (obj : H) : Response :=
  { StatusCode := code
    Header := [("Content-Type", ["application/json; charset=utf-8"])]
    Body := renderJSON obj }

/-- Does a route pattern match a path?  Static text matches itself, `:name`
matches one non-empty segment, `*name` matches the rest of the path.  The flag
is set while the name of a parameter is being skipped. -/
def matchPattern : Bool → List Char → List Char → Bool
  | _, [], path => path = []
  | true, c :: pat, path =>
    if c = '/' then
      match path with
      | d :: rest => d = '/' && matchPattern false pat rest
      | [] => false
    else matchPattern true pat path
  | false, c :: pat, path =>
    if c = '*' then true
    else if c = ':' then
      (path.takeWhile (· ≠ '/')) ≠ [] && matchPattern true pat (path.dropWhile (· ≠ '/'))
    else
      match path with
      | d :: rest => c = d && matchPattern false pat rest
      | [] => false

/-- The routes of one method (`methodTree`), in registration order. -/
abbrev Routes := List (String × HandlerFunc)

/-- The lookup `root.getValue`: the handler of the route matching the path. -/
def getValue (routes : Routes) (path : String) : Option HandlerFunc :=
  (routes.find? fun r => matchPattern false r.1.data path.data).map (·.2)

/-- The trailing-slash recommendation of `getValue`: no route matches the
path, but one matches it with a slash added or with its final slash removed. -/
def tsr (routes : Routes) (path : String) : Bool :=
  (getValue routes (path ++ "/")).isSome ||
    (Str.hasSuffix path "/" && (getValue routes (String.mk path.data.dropLast)).isSome)

/-- Go `gin.Engine`: the method trees and the one switch the programs touch.
`RedirectFixedPath`, `HandleMethodNotAllowed`, `UseRawPath` and
`RemoveExtraSlash` keep their default `false`. -/
structure Engine where
  RedirectTrailingSlash : Bool := true
  trees : List (String × Routes) := []
deriving DecidableEq, Repr

/-- Go `gin.Default()`; the logger and recovery middleware write no response. -/
def Default : Engine := {}

/-- What the router decides for a request. -/
inductive Routed
  | handler (h : HandlerFunc)
  | redirect (code : Nat)
  | notFound
deriving DecidableEq, Repr

namespace Engine

/-- Go `engine.addRoute`: append to the tree of the method, creating it first. -/
def addRoute (e : Engine) (method path : String) (h : HandlerFunc) : Engine :=
  if e.trees.any fun t => t.1 = method then
    { e with trees := e.trees.map fun t => if t.1 = method then (t.1, t.2 ++ [(path, h)]) else t }
  else { e with trees := e.trees ++ [(method, [(path, h)])] }

/-- Go `anyMethods`. -/
def anyMethods : List String :=
  ["GET", "POST", "PUT", "PATCH", "HEAD", "OPTIONS", "DELETE", "CONNECT", "TRACE"]

/-- Go `r.Any`: the route is registered for each of `anyMethods`, and for no
other method. -/
def Any (e : Engine) (path : String) (h : HandlerFunc) : Engine :=
  anyMethods.foldl (fun e m => e.addRoute m path h) e

/-- Go `r.GET`. -/
def GET (e : Engine) (path : String) (h : HandlerFunc) : Engine := e.addRoute "GET" path h

/-- Go `r.POST`. -/
def POST (e : Engine) (path : String) (h : HandlerFunc) : Engine := e.addRoute "POST" path h

/-- Go `r.PUT`. -/
def PUT (e : Engine) (path : String) (h : HandlerFunc) : Engine := e.addRoute "PUT" path h

/-- Go `r.DELETE`. -/
def DELETE (e : Engine) (path : String) (h : HandlerFunc) : Engine := e.addRoute "DELETE" path h

/-- Go `engine.handleHTTPRequest`: find the tree of the method and the route
of the path; without a route, redirect for a trailing slash (301 for GET, 307
otherwise; never for CONNECT or for the path `/`) or answer 404. -/
def handleHTTPRequest (e : Engine) (req : Request) : Routed :=
  let rPath := req.URL.Path
  match e.trees.find? fun t => t.1 = req.Method with
  | none => .notFound
  | some t =>
    match getValue t.2 rPath with
    | some h => .handler h
    | none =>
      if req.Method ≠ "CONNECT" ∧ rPath ≠ "/" ∧ tsr t.2 rPath = true ∧ e.RedirectTrailingSlash = true then
        .redirect (if req.Method = "GET" then 301 else 307)
      else .notFound

end Engine

end gin

/-! ## `gateway/main.go` -/

namespace Gateway

/-- The director `reverseProxy` installs: the original director of
`NewSingleHostReverseProxy(targetURL)`, then `req.Host = targetURL.Host`. -/
def director (targetURL : URL) (req : Request) : Request :=
  let req := httputil.rewriteRequestURL req targetURL
  { req with Host := targetURL.Host }

/-- The function `reverseProxy`: parse the target, fail fatally on an error
(`log.Fatalf`), otherwise return the handler that serves through the proxy. -/
def reverseProxy (parse : String → Except String URL) (target : String) :
    Except String gin.HandlerFunc :=
  match parse target with
  | .error err => .error ("Failed to parse target URL: " ++ err)
  | .ok targetURL => .ok (.proxy targetURL)

end Gateway

/-- Running a registered handler (`c.Next()` on the handler chain). -/
def gin.HandlerFunc.run (w : World) (req : Request) : gin.HandlerFunc → Exchange
  | .proxy targetURL => httputil.ServeHTTP (Gateway.director targetURL) w req
  | .json code obj => { response := gin.JSON code obj }
  | .domain name => { response := w.domain name req }

/-- Carrying out what the router decided.  Of the redirect and the 404 answer
only the status is kept. -/
def gin.Routed.run (w : World) (req : Request) : gin.Routed → Exchange
  | .handler h => h.run w req
  | .redirect code => { response := { StatusCode := code } }
  | .notFound => { response := { StatusCode := 404 } }

/-- Go `engine.ServeHTTP`: route the request and carry out the decision. -/
def gin.Engine.ServeHTTP (e : gin.Engine) (w : World) (req : Request) : Exchange :=
  (e.handleHTTPRequest req).run w req

/-! ## The Consul agent API -/

namespace consul

/-- Go `api.AgentServiceCheck`. -/
structure AgentServiceCheck where
  HTTP : String
  Interval : String
  Timeout : String
deriving DecidableEq, Repr

/-- Go `api.AgentServiceRegistration`. -/
structure AgentServiceRegistration where
  ID : String
  Name : String
  Address : String
  Port : Nat
  Check : AgentServiceCheck
deriving DecidableEq, Repr

/-- The registry, as a map from service ID to registration record. -/
abbrev Registry := String → Option AgentServiceRegistration

/-- An accepted `ServiceRegister`: the record is stored under its ID. -/
def Registry.register (m : Registry) (r : AgentServiceRegistration) : Registry :=
  fun id => if id = r.ID then some r else m id

/-- An accepted `ServiceDeregister`: the entry of the ID is removed. -/
def Registry.deregister (m : Registry) (serviceID : String) : Registry :=
  fun id => if id = serviceID then none else m id

end consul

/-! ## Processes -/

/-- What a process does that the rest of the system can observe. -/
inductive Event
  /-- the registry accepted `Agent().ServiceRegister(registration)` -/
  | ServiceRegister (registration : consul.AgentServiceRegistration)
  /-- `Agent().ServiceDeregister(serviceID)` was submitted -/
  | ServiceDeregister (serviceID : String)
  /-- `r.Run(addr)` was called: the engine binds the address and serves -/
  | Run (addr : String) (engine : gin.Engine)
  /-- `log.Fatal`/`log.Fatalf` logged the message -/
  | Fatal (msg : String)
deriving DecidableEq, Repr

/-- One execution of a `main`: its events in order and its exit status,
`none` when the process does not exit by itself. -/
structure Execution where
  events : List Event
  exit : Option Nat
deriving DecidableEq, Repr

namespace Execution

/-- Go `log.Fatal`: log, then `os.Exit(1)`; deferred calls do not run. -/
def fatal (events : List Event) (msg : String) : Execution :=
  { events := events ++ [.Fatal msg], exit := some 1 }

/-- Return from `main`: the deferred calls run, the exit status is 0. -/
def returned (events deferred : List Event) : Execution :=
  { events := events ++ deferred, exit := some 0 }

/-- The process blocks for ever (the server never stops). -/
def blocked (events : List Event) : Execution :=
  { events := events, exit := none }

/-- The engine the execution serves, when it reaches `r.Run`. -/
def served (x : Execution) : Option gin.Engine :=
  x.events.findSome? fun
    | .Run _ engine => some engine
    | _ => none

/-- The address the execution binds, when it reaches `r.Run`. -/
def bound (x : Execution) : Option String :=
  x.events.findSome? fun
    | .Run addr _ => some addr
    | _ => none

/-- What the router of the process decides for a request the server hands to
it. -/
def routed (x : Execution) (req : Request) : Option gin.Routed :=
  x.served.map fun engine => engine.handleHTTPRequest req

/-- How the process answers a request its server has read: `none` when it
serves nothing, otherwise the answer of the server whose handler is the
engine. -/
def answer (x : Execution) (w : World) (req : Request) : Option Exchange :=
  x.served.map fun engine => http.serve (engine.ServeHTTP w) req

/-- The service IDs the execution submits for deregistration. -/
def deregistered (x : Execution) : List String :=
  x.events.filterMap fun
    | .ServiceDeregister id => some id
    | _ => none

/-- The state of the registry after the events of an execution. -/
def registry (m : consul.Registry) (events : List Event) : consul.Registry :=
  events.foldl (fun m ev =>
    match ev with
    | .ServiceRegister r => m.register r
    | .ServiceDeregister id => m.deregister id
    | _ => m) m

end Execution

/-- The two backend programs. -/
inductive Backend
  | userService
  | productService
deriving DecidableEq, Repr

namespace Gateway

/-- The target `main` registers for the route of each backend. -/
def target : Backend → String
  | .userService => "http://user-service:8001"
  | .productService => "http://product-service:8002"

/-- The function `main` of the gateway over its configuration: the parser,
the two targets, and `ran`, the error `r.Run` returns (`none` when the server
never stops). -/
def mainWith (parse : String → Except String URL) (userTarget productTarget : String)
    (ran : Option String) : Execution :=
  let r := gin.Default
  match reverseProxy parse userTarget with
  | .error msg => Execution.fatal [] msg
  | .ok users =>
    let r := r.Any "/users/*any" users
    match reverseProxy parse productTarget with
    | .error msg => Execution.fatal [] msg
    | .ok products =>
      let r := r.Any "/products/*any" products
      let r := r.GET "/health" (.json 200 [("status", "gateway up")])
      match ran with
      | none => Execution.blocked [.Run ":8000" r]
      | some _ => Execution.returned [.Run ":8000" r] []

/-- The function `main` of the gateway as written: `url.Parse` and the two
literal targets. -/
def main (ran : Option String) : Execution :=
  mainWith URL.Parse (target .userService) (target .productService) ran

end Gateway

/-! ## The backends -/

/-- The results of the calls a backend `main` makes to the outside, `none`
for success: the error of `gorm.Open` (user-service), of `mongo.NewClient`
and `client.Connect` (product-service), of `api.NewClient` and of
`ServiceRegister`; and `Run`, the error `r.Run` returns, `none` when the
server never stops. -/
structure Env where
  gormOpen : Option String := none
  mongoNewClient : Option String := none
  Connect : Option String := none
  NewClient : Option String := none
  ServiceRegister : Option String := none
  Run : Option String := none
deriving DecidableEq, Repr

/-! ### `user-service/main.go` -/

namespace UserService

/-- The record `registerServiceWithConsul` builds. -/
def registration : consul.AgentServiceRegistration :=
  let serviceID := "user-service"
  { ID := serviceID
    Name := "user-service"
    Address := "user-service"
    Port := 8001
    Check := { HTTP := "http://user-service:8001/health", Interval := "10s", Timeout := "1s" } }

/-- The function `registerServiceWithConsul`: the events of a successful
registration, or the message of the `log.Fatalf` that ends the process. -/
def registerServiceWithConsul (env : Env) : Except String (List Event) :=
  match env.NewClient with
  | some err => .error ("Failed to connect to Consul: " ++ err)
  | none =>
    match env.ServiceRegister with
    | some err => .error ("Error registering service with Consul: " ++ err)
    | none => .ok [.ServiceRegister registration]

/-- The call `main` defers: `consulClient.Agent().ServiceDeregister("user-service")`. -/
def deferred : List Event := [.ServiceDeregister "user-service"]

/-- The engine `main` builds. -/
def engine : gin.Engine :=
  let r := gin.Default
  let r := { r with RedirectTrailingSlash := false }
  let r := r.GET "/health" (.json 200 [("status", "up")])
  let r := r.POST "/users/" (.domain "POST /users/")
  let r := r.GET "/users/" (.domain "GET /users/")
  let r := r.GET "/users/:id" (.domain "GET /users/:id")
  let r := r.PUT "/users/:id" (.domain "PUT /users/:id")
  let r := r.DELETE "/users/:id" (.domain "DELETE /users/:id")
  r

/-- The function `main`: open the database, register, defer the
deregistration, build the engine, run it, return. -/
def main (env : Env) : Execution :=
  match env.gormOpen with
  | some err => Execution.fatal [] ("Failed to connect to database:" ++ err)
  | none =>
    match registerServiceWithConsul env with
    | .error msg => Execution.fatal [] msg
    | .ok registered =>
      match env.Run with
      | none => Execution.blocked (registered ++ [.Run ":8001" engine])
      | some _ => Execution.returned (registered ++ [.Run ":8001" engine]) deferred

end UserService

/-! ### `product-service/main.go` -/

namespace ProductService

/-- The record `registerServiceWithConsul` builds. -/
def registration : consul.AgentServiceRegistration :=
  let serviceID := "product-service"
  { ID := serviceID
    Name := "product-service"
    Address := "product-service"
    Port := 8002
    Check := { HTTP := "http://product-service:8002/health", Interval := "10s", Timeout := "1s" } }

/-- The function `registerServiceWithConsul`: the events of a successful
registration, or the message of the `log.Fatalf` that ends the process. -/
def registerServiceWithConsul (env : Env) : Except String (List Event) :=
  match env.NewClient with
  | some err => .error ("Failed to connect to Consul: " ++ err)
  | none =>
    match env.ServiceRegister with
    | some err => .error ("Error registering service with Consul: " ++ err)
    | none => .ok [.ServiceRegister registration]

/-- The calls `main` defers that reach the registry: the closure around
`consulClient.Agent().ServiceDeregister("product-service")` (the deferred
`cancel()` of the connection context has no event). -/
def deferred : List Event := [.ServiceDeregister "product-service"]

/-- The engine `main` builds. -/
def engine : gin.Engine :=
  let r := gin.Default
  let r := { r with RedirectTrailingSlash := false }
  let r := r.GET "/health" (.json 200 [("status", "product-service up")])
  let r := r.POST "/products/" (.domain "createProduct")
  let r := r.GET "/products/" (.domain "getAllProducts")
  let r := r.GET "/products/:id" (.domain "getProductByID")
  let r := r.PUT "/products/:id" (.domain "updateProduct")
  let r := r.DELETE "/products/:id" (.domain "deleteProduct")
  r

/-- The function `main`: connect to the database, register, defer the
deregistration, build the engine, and `log.Fatal(r.Run(":8002"))`: when
`r.Run` returns, the process exits through `log.Fatal`, which runs no
deferred call. -/
def main (env : Env) : Execution :=
  match env.mongoNewClient with
  | some err => Execution.fatal [] ("Failed to create MongoDB client:" ++ err)
  | none =>
    match env.Connect with
    | some err => Execution.fatal [] ("Failed to connect to MongoDB:" ++ err)
    | none =>
      match registerServiceWithConsul env with
      | .error msg => Execution.fatal [] msg
      | .ok registered =>
        match env.Run with
        | none => Execution.blocked (registered ++ [.Run ":8002" engine])
        | some err => Execution.fatal (registered ++ [.Run ":8002" engine]) err

end ProductService

namespace Backend

/-- The `main` of the backend. -/
def main : Backend → Env → Execution
  | userService => UserService.main
  | productService => ProductService.main

/-- The `registerServiceWithConsul` of the backend. -/
def registerServiceWithConsul : Backend → Env → Except String (List Event)
  | userService => UserService.registerServiceWithConsul
  | productService => ProductService.registerServiceWithConsul

/-- The registration record of the backend. -/
def registration : Backend → consul.AgentServiceRegistration
  | userService => UserService.registration
  | productService => ProductService.registration

/-- The deferred calls of the backend's `main`. -/
def deferred : Backend → List Event
  | userService => UserService.deferred
  | productService => ProductService.deferred

/-- The path under which the gateway routes to the backend. -/
def route : Backend → String
  | userService => "/users/"
  | productService => "/products/"

end Backend

/-- The engine of the backend's `main`. -/
def Backend.engine : Backend → gin.Engine
  | .userService => UserService.engine
  | .productService => ProductService.engine

/-- The health request the registry sends. -/
def healthRequest : Request := { Method := "GET", URL := { Path := "/health" } }

/-- An environment in which every call succeeds and `r.Run` returns `err`. -/
def Env.stopped (err : String) : Env := { Run := some err }

/-- The port of a listen address such as `:8001`. -/
def listenPort (addr : String) : Option Nat :=
  (Str.cutLast ':' addr.data).bind fun hp => Str.atoi hp.2

/-- A world whose backends are unreachable: no idle connection, and every
dial fails. -/
def World.unreachable : World :=
  { idle := []
    dial := fun _ => .error "dial tcp: connection refused"
    domain := fun _ _ => { StatusCode := 200 } }

/-- A request from 10.0.0.7 for `/users/42` that carries a `Connection` header
and an `X-Forwarded-For` header of an earlier proxy. -/
def keepAliveRequest : Request :=
  { Method := "GET"
    URL := { Path := "/users/42" }
    Host := "gateway:8000"
    Header := [("Accept", ["*/*"]), ("Connection", ["keep-alive"]),
      ("X-Forwarded-For", ["192.0.2.1"])]
    RemoteAddr := "10.0.0.7:51000" }

/-- A WebDAV request for a path under the user route. -/
def propfindRequest : Request := { Method := "PROPFIND", URL := { Path := "/users/42" } }

/-- A request for `/users/42` with an `Expect` header other than
`100-continue`. -/
def expectRequest : Request :=
  { Method := "GET", URL := { Path := "/users/42" }, Header := [("Expect", ["foo"])] }

/-- A request for `/users/42` that asks to switch to a protocol whose name
holds a tab. -/
def switchRequest : Request :=
  { Method := "GET"
    URL := { Path := "/users/42" }
    Header := [("Connection", ["Upgrade"]), ("Upgrade", ["web\tsocket"])] }

/-- A request for the user route without its final slash. -/
def usersRequest : Request := { Method := "GET", URL := { Path := "/users" } }

/-- The request `OPTIONS *`. -/
def optionsRequest : Request := { Method := "OPTIONS", URL := { Path := "*" } }

/-- A request for a path under no route. -/
def ordersRequest : Request := { Method := "GET", URL := { Path := "/orders/1" } }

/-- A request for a path under no route, with an `Expect` header other than
`100-continue`. -/
def ordersExpectRequest : Request :=
  { Method := "GET", URL := { Path := "/orders/1" }, Header := [("Expect", ["foo"])] }

/-! ## Theorems -/

/-! ### Routing lemmas -/

namespace gin

theorem matchPattern_catchAll (s name : List Char) (hs : ∀ c ∈ s, c ≠ '*' ∧ c ≠ ':')
    (path : List Char) : matchPattern false (s ++ '*' :: name) path = s.isPrefixOf path := by
  induction s generalizing path with
  | nil => simp [matchPattern]
  | cons c s ih =>
    have hc := hs c (List.mem_cons_self _ _)
    have hs' : ∀ d ∈ s, d ≠ '*' ∧ d ≠ ':' := fun d hd => hs d (List.mem_cons_of_mem _ hd)
    cases path with
    | nil => simp [matchPattern, hc.1, hc.2]
    | cons d rest =>
      simp only [List.cons_append, matchPattern, hc.1, hc.2, if_false, ih hs' rest,
        List.isPrefixOf]
      by_cases h : c = d <;> simp [h, ih hs' rest]

theorem matchPattern_static (s : List Char) (hs : ∀ c ∈ s, c ≠ '*' ∧ c ≠ ':')
    (path : List Char) : matchPattern false s path = decide (path = s) := by
  induction s generalizing path with
  | nil => simp [matchPattern]
  | cons c s ih =>
    have hc := hs c (List.mem_cons_self _ _)
    have hs' : ∀ d ∈ s, d ≠ '*' ∧ d ≠ ':' := fun d hd => hs d (List.mem_cons_of_mem _ hd)
    cases path with
    | nil => simp [matchPattern, hc.1, hc.2]
    | cons d rest =>
      simp only [matchPattern, hc.1, hc.2, if_false, ih hs' rest]
      by_cases h : c = d
      · subst h; simp
      · have h' : d ≠ c := fun e => h e.symm
        simp [h, h']

theorem match_users (p : String) :
    matchPattern false ['/', 'u', 's', 'e', 'r', 's', '/', '*', 'a', 'n', 'y'] p.data =
      Str.hasPrefix p "/users/" :=
  matchPattern_catchAll "/users/".data "any".data (by decide) p.data

theorem match_products (p : String) :
    matchPattern false ['/', 'p', 'r', 'o', 'd', 'u', 'c', 't', 's', '/', '*', 'a', 'n', 'y'] p.data =
      Str.hasPrefix p "/products/" :=
  matchPattern_catchAll "/products/".data "any".data (by decide) p.data

theorem match_health (p : String) :
    matchPattern false ['/', 'h', 'e', 'a', 'l', 't', 'h'] p.data = decide (p = "/health") := by
  rw [matchPattern_static "/health".data (by decide) p.data]
  congr 1
  simp [String.ext_iff]

end gin

namespace Str

theorem isPrefixOf_snoc (l p : List Char) (c : Char) :
    (l ++ [c]).isPrefixOf (p ++ [c]) = true ↔ (l ++ [c]).isPrefixOf p = true ∨ p = l := by
  simp only [List.isPrefixOf_iff_prefix]
  constructor
  · rintro ⟨t, ht⟩
    rcases List.eq_nil_or_concat t with rfl | ⟨t', x, rfl⟩
    · right
      simpa using ht.symm
    · left
      rw [List.concat_eq_append, ← List.append_assoc] at ht
      exact ⟨t', (List.append_inj' ht rfl).1⟩
  · rintro (h | rfl)
    · exact h.trans (List.prefix_append p [c])
    · exact List.prefix_refl _

theorem hasPrefix_slash (path l : String) :
    hasPrefix (path ++ "/") (l ++ "/") = true ↔ hasPrefix path (l ++ "/") = true ∨ path = l := by
  unfold hasPrefix
  simp only [String.data_append]
  rw [isPrefixOf_snoc]
  simp [String.ext_iff]

theorem hasPrefix_dropLast (path l : String)
    (h : hasPrefix (String.mk path.data.dropLast) l = true) : hasPrefix path l = true := by
  unfold hasPrefix at *
  simp only [List.isPrefixOf_iff_prefix] at *
  exact h.trans (List.dropLast_prefix _)

theorem hasSuffix_slash (path : String) :
    hasSuffix path "/" = true ↔ path = String.mk path.data.dropLast ++ "/" := by
  unfold hasSuffix
  have : "/".data.reverse = ['/'] := rfl
  rw [this, String.ext_iff]
  simp only [String.data_append]
  rcases List.eq_nil_or_concat path.data with h | ⟨t, x, h⟩
  · rw [h]; simp
  · rw [h]; simp
    exact ⟨fun e => e.symm, fun e => e.symm⟩

end Str

namespace Gateway

theorem getValue_any (u p : gin.HandlerFunc) (path : String) :
    gin.getValue [("/users/*any", u), ("/products/*any", p)] path =
      if Str.hasPrefix path "/users/" = true then some u
      else if Str.hasPrefix path "/products/" = true then some p
      else none := by
  simp only [gin.getValue, List.find?, gin.match_users, gin.match_products]
  cases Str.hasPrefix path "/users/" <;> cases Str.hasPrefix path "/products/" <;> simp

theorem getValue_get (u p h : gin.HandlerFunc) (path : String) :
    gin.getValue [("/users/*any", u), ("/products/*any", p), ("/health", h)] path =
      if Str.hasPrefix path "/users/" = true then some u
      else if Str.hasPrefix path "/products/" = true then some p
      else if path = "/health" then some h
      else none := by
  simp only [gin.getValue, List.find?, gin.match_users, gin.match_products, gin.match_health]
  cases Str.hasPrefix path "/users/" <;> cases Str.hasPrefix path "/products/" <;>
    by_cases hh : path = "/health" <;> simp [hh]

theorem tsr_any (u p : gin.HandlerFunc) (path : String)
    (h1 : Str.hasPrefix path "/users/" = false) (h2 : Str.hasPrefix path "/products/" = false) :
    gin.tsr [("/users/*any", u), ("/products/*any", p)] path =
      decide (path = "/users" ∨ path = "/products") := by
  have e1 := Str.hasPrefix_slash path "/users"
  have e2 := Str.hasPrefix_slash path "/products"
  have d1 : Str.hasPrefix (String.mk path.data.dropLast) "/users/" = false := by
    by_contra hc
    have := Str.hasPrefix_dropLast path "/users/" (by simpa using hc)
    simp [h1] at this
  have d2 : Str.hasPrefix (String.mk path.data.dropLast) "/products/" = false := by
    by_contra hc
    have := Str.hasPrefix_dropLast path "/products/" (by simpa using hc)
    simp [h2] at this
  have a1 : ("/users" : String) ++ "/" = "/users/" := rfl
  have a2 : ("/products" : String) ++ "/" = "/products/" := rfl
  rw [a1] at e1
  rw [a2] at e2
  simp only [gin.tsr, getValue_any, d1, d2]
  by_cases hu : path = "/users"
  · subst hu; rfl
  · by_cases hp : path = "/products"
    · subst hp; rfl
    · have f1 : Str.hasPrefix (path ++ "/") "/users/" = false := by
        by_contra hc
        rcases e1.1 (by simpa using hc) with h | h
        · simp [h1] at h
        · exact hu h
      have f2 : Str.hasPrefix (path ++ "/") "/products/" = false := by
        by_contra hc
        rcases e2.1 (by simpa using hc) with h | h
        · simp [h2] at h
        · exact hp h
      simp [f1, f2, hu, hp]


theorem tsr_get (u p h : gin.HandlerFunc) (path : String)
    (h1 : Str.hasPrefix path "/users/" = false) (h2 : Str.hasPrefix path "/products/" = false)
    (h3 : path ≠ "/health") :
    gin.tsr [("/users/*any", u), ("/products/*any", p), ("/health", h)] path =
      decide (path = "/users" ∨ path = "/products" ∨ path = "/health/") := by
  have e1 := Str.hasPrefix_slash path "/users"
  have e2 := Str.hasPrefix_slash path "/products"
  have d1 : Str.hasPrefix (String.mk path.data.dropLast) "/users/" = false := by
    by_contra hc
    have := Str.hasPrefix_dropLast path "/users/" (by simpa using hc)
    simp [h1] at this
  have d2 : Str.hasPrefix (String.mk path.data.dropLast) "/products/" = false := by
    by_contra hc
    have := Str.hasPrefix_dropLast path "/products/" (by simpa using hc)
    simp [h2] at this
  have a1 : ("/users" : String) ++ "/" = "/users/" := rfl
  have a2 : ("/products" : String) ++ "/" = "/products/" := rfl
  rw [a1] at e1
  rw [a2] at e2
  have g1 : path ++ "/" ≠ "/health" := by
    intro e
    have := congrArg (fun s : String => s.data.reverse.head?) e
    simp at this
  simp only [gin.tsr, getValue_get, d1, d2, g1]
  by_cases hu : path = "/users"
  · subst hu; rfl
  · by_cases hp : path = "/products"
    · subst hp; rfl
    · have f1 : Str.hasPrefix (path ++ "/") "/users/" = false := by
        by_contra hc
        rcases e1.1 (by simpa using hc) with h | h
        · simp [h1] at h
        · exact hu h
      have f2 : Str.hasPrefix (path ++ "/") "/products/" = false := by
        by_contra hc
        rcases e2.1 (by simpa using hc) with h | h
        · simp [h2] at h
        · exact hp h
      by_cases hh : path = "/health/"
      · subst hh; rfl
      · have g2 : ¬ (Str.hasSuffix path "/" = true ∧ String.mk path.data.dropLast = "/health") := by
          rintro ⟨hs, hd⟩
          have := (Str.hasSuffix_slash path).1 hs
          rw [hd] at this
          exact hh this
        by_cases hs : Str.hasSuffix path "/" = true
        · have hd : String.mk path.data.dropLast ≠ "/health" := fun hd => g2 ⟨hs, hd⟩
          simp [f1, f2, hu, hp, hh, hd]
        · simp [f1, f2, hu, hp, hh, hs]

/-- The engine `main` serves: the GET tree holds the two proxy routes and the
health route, the trees of the other eight methods the two proxy routes. -/
theorem served_main (ran : Option String) :
    (Gateway.main ran).served = some
      { RedirectTrailingSlash := true
        trees :=
          ("GET", [("/users/*any", .proxy { Scheme := "http", Host := "user-service:8001" }),
                   ("/products/*any", .proxy { Scheme := "http", Host := "product-service:8002" }),
                   ("/health", .json 200 [("status", "gateway up")])]) ::
          ["POST", "PUT", "PATCH", "HEAD", "OPTIONS", "DELETE", "CONNECT", "TRACE"].map fun m =>
            (m, [("/users/*any", .proxy { Scheme := "http", Host := "user-service:8001" }),
                 ("/products/*any", .proxy { Scheme := "http", Host := "product-service:8002" })]) } := by
  cases ran <;> rfl


/-- What the gateway's router decides, for every request. -/
theorem routed_main (ran : Option String) (req : Request) :
    (Gateway.main ran).routed req = some (
      if req.Method ∈ gin.Engine.anyMethods then
        if Str.hasPrefix req.URL.Path "/users/" = true then
          .handler (.proxy { Scheme := "http", Host := "user-service:8001" })
        else if Str.hasPrefix req.URL.Path "/products/" = true then
          .handler (.proxy { Scheme := "http", Host := "product-service:8002" })
        else if req.Method = "GET" ∧ req.URL.Path = "/health" then
          .handler (.json 200 [("status", "gateway up")])
        else if req.Method ≠ "CONNECT" ∧
            (req.URL.Path = "/users" ∨ req.URL.Path = "/products" ∨
              (req.Method = "GET" ∧ req.URL.Path = "/health/")) then
          .redirect (if req.Method = "GET" then 301 else 307)
        else .notFound
      else .notFound) := by
  simp only [Execution.routed, served_main, Option.map_some']
  congr 1
  obtain ⟨m, ⟨sch, op, host, path, q⟩, rh, hd, body, ra⟩ := req
  simp only [gin.Engine.handleHTTPRequest]
  by_cases hm : m ∈ gin.Engine.anyMethods
  · rw [if_pos hm]
    simp only [gin.Engine.anyMethods, List.mem_cons, List.mem_singleton, List.not_mem_nil,
      or_false] at hm
    cases h1 : Str.hasPrefix path "/users/" <;> cases h2 : Str.hasPrefix path "/products/" <;>
      rcases hm with rfl | rfl | rfl | rfl | rfl | rfl | rfl | rfl | rfl <;>
      simp [List.find?, getValue_any, getValue_get, h1, h2, tsr_any, tsr_get]
    all_goals
      by_cases hh : path = "/health"
      · simp [hh]
      · have ht := tsr_get (.proxy { Scheme := "http", Host := "user-service:8001" })
          (.proxy { Scheme := "http", Host := "product-service:8002" })
          (.json 200 [("status", "gateway up")]) path h1 h2 hh
        by_cases hu : path = "/users"
        · subst hu; simp [ht]
        · by_cases hp : path = "/products"
          · subst hp; simp [ht]
          · by_cases hs : path = "/health/"
            · subst hs; simp [ht]
            · simp [ht, hh, hu, hp, hs]

  · rw [if_neg hm]
    simp only [gin.Engine.anyMethods, List.mem_cons, List.mem_singleton, List.not_mem_nil,
      or_false, not_or] at hm
    obtain ⟨a, b, c, d, e, f, g, h, i⟩ := hm
    simp [List.find?, Ne.symm a, Ne.symm b, Ne.symm c, Ne.symm d, Ne.symm e, Ne.symm f,
      Ne.symm g, Ne.symm h, Ne.symm i]

end Gateway

/-! ### Backend lifecycle -/

/-- C5. In each backend, when `api.NewClient` or `ServiceRegister` fails, `main`
exits with the non-zero status 1 and never calls `r.Run`: its execution has
no `Run` event, serves no engine and answers no request. -/
theorem registration_failure_is_fatal (b : Backend) (env : Env)
    (h : env.NewClient ≠ none ∨ env.ServiceRegister ≠ none) :
    (b.main env).exit = some 1 ∧
      (∀ addr engine, Event.Run addr engine ∉ (b.main env).events) ∧
      (b.main env).served = none ∧
      ∀ w req, (b.main env).answer w req = none := by
  obtain ⟨o, m, c, n, r, run⟩ := env
  cases b <;> cases o <;> cases m <;> cases c <;> cases n <;> cases r <;>
    simp_all [Backend.main, UserService.main, ProductService.main,
      UserService.registerServiceWithConsul, ProductService.registerServiceWithConsul,
      Execution.fatal, Execution.served, Execution.answer]

/-- C5, at the user service with an unreachable registry. -/
theorem registration_failure_is_fatal_witness :
    (Backend.userService.main { ServiceRegister := some "connection refused" }).exit = some 1 ∧
      (∀ addr engine, Event.Run addr engine ∉
        (Backend.userService.main { ServiceRegister := some "connection refused" }).events) ∧
      (Backend.userService.main { ServiceRegister := some "connection refused" }).served = none ∧
      ∀ w req,
        (Backend.userService.main { ServiceRegister := some "connection refused" }).answer w req = none :=
  registration_failure_is_fatal .userService { ServiceRegister := some "connection refused" }
    (Or.inr (by simp))

/-- C6. The product service never submits a deregistration: in every
execution of its `main` the list of deregistered IDs is empty, and when
`r.Run` returns after a successful registration the process exits with
status 1 through `log.Fatal`; the user service in the same situation
deregisters `user-service` once and exits with status 0. -/
theorem product_service_never_deregisters :
    (∀ env, (ProductService.main env).deregistered = []) ∧
      (∀ err, (ProductService.main (Env.stopped err)).exit = some 1 ∧
        (ProductService.main (Env.stopped err)).events =
          [.ServiceRegister ProductService.registration, .Run ":8002" ProductService.engine,
           .Fatal err]) ∧
      (∀ err, (UserService.main (Env.stopped err)).deregistered = ["user-service"] ∧
        (UserService.main (Env.stopped err)).exit = some 0) := by
  refine ⟨?_, ?_, ?_⟩
  · rintro ⟨o, m, c, n, r, run⟩
    cases m <;> cases c <;> cases n <;> cases r <;> cases run <;>
      simp [ProductService.main, ProductService.registerServiceWithConsul, Execution.fatal,
        Execution.blocked, Execution.deregistered]
  · intro err
    simp [ProductService.main, ProductService.registerServiceWithConsul, Execution.fatal,
      Env.stopped]
  · intro err
    simp [UserService.main, UserService.registerServiceWithConsul, Execution.returned,
      Env.stopped, Execution.deregistered, UserService.deferred]

/-- C7. For each backend and from any registry state: a successful
`registerServiceWithConsul` registers exactly one record, the registry then
holds that record under its ID, and after the deregistration that `main`
defers the registry holds no entry for that ID. -/
theorem register_then_deregister (b : Backend) (m : consul.Registry) (env : Env)
    (events : List Event) (h : b.registerServiceWithConsul env = .ok events) :
    ∃ r, events = [.ServiceRegister r] ∧
      Execution.registry m events r.ID = some r ∧
      Execution.registry m (events ++ b.deferred) r.ID = none := by
  obtain ⟨o, mc, c, n, r, run⟩ := env
  cases b <;> cases n <;> cases r <;>
    simp [Backend.registerServiceWithConsul, UserService.registerServiceWithConsul,
      ProductService.registerServiceWithConsul] at h <;>
    subst h
  · exact ⟨UserService.registration, rfl,
      by simp [Execution.registry, consul.Registry.register],
      by simp [Execution.registry, consul.Registry.register, consul.Registry.deregister,
        Backend.deferred, UserService.deferred, UserService.registration]⟩
  · exact ⟨ProductService.registration, rfl,
      by simp [Execution.registry, consul.Registry.register],
      by simp [Execution.registry, consul.Registry.register, consul.Registry.deregister,
        Backend.deferred, ProductService.deferred, ProductService.registration]⟩

/-- C7, at the product service, from the empty registry. -/
theorem register_then_deregister_witness :
    ∃ r, [Event.ServiceRegister ProductService.registration] = [.ServiceRegister r] ∧
      Execution.registry (fun _ => none) [Event.ServiceRegister ProductService.registration] r.ID
        = some r ∧
      Execution.registry (fun _ => none)
        ([Event.ServiceRegister ProductService.registration] ++ Backend.productService.deferred)
        r.ID = none :=
  register_then_deregister .productService (fun _ => none) {}
    [Event.ServiceRegister ProductService.registration] rfl

/-- C4. The product service answers `GET /health` with status 200 and the JSON
object whose `status` is its registered name followed by ` up`; the user
service answers with status 200 and the `status` text `up`, which is not its
registered name followed by ` up`. -/
theorem health_bodies (w : World) :
    (Backend.productService.main {}).answer w healthRequest =
        some { response := gin.JSON 200 [("status", ProductService.registration.Name ++ " up")] } ∧
      (Backend.userService.main {}).answer w healthRequest =
        some { response := gin.JSON 200 [("status", "up")] } ∧
      (gin.JSON 200 [("status", "up")]).Body ≠
        (gin.JSON 200 [("status", UserService.registration.Name ++ " up")]).Body := by
  refine ⟨rfl, rfl, ?_⟩
  decide

/-! ### Gateway start-up -/

/-- C8. Whatever the parser and the targets: when parsing the user target or the
product target fails, the gateway's `main` exits with status 1 through
`log.Fatalf`, never calls `r.Run`, serves no engine and answers no request,
`/health` included. -/
theorem malformed_target_is_fatal (parse : String → Except String URL)
    (userTarget productTarget : String) (ran : Option String)
    (h : (∃ err, parse userTarget = .error err) ∨ (∃ err, parse productTarget = .error err)) :
    (Gateway.mainWith parse userTarget productTarget ran).exit = some 1 ∧
      (∀ addr engine, Event.Run addr engine ∉
        (Gateway.mainWith parse userTarget productTarget ran).events) ∧
      (Gateway.mainWith parse userTarget productTarget ran).served = none ∧
      ∀ w req, (Gateway.mainWith parse userTarget productTarget ran).answer w req = none := by
  unfold Gateway.mainWith Gateway.reverseProxy
  rcases h with ⟨err, h⟩ | ⟨err, h⟩
  · simp [h, Execution.fatal, Execution.served, Execution.answer]
  · cases hu : parse userTarget <;>
      simp [h, Execution.fatal, Execution.served, Execution.answer]

/-- C8, with `url.Parse` and a product target that lacks its scheme. -/
theorem malformed_target_is_fatal_witness :
    (Gateway.mainWith URL.Parse "http://user-service:8001" "://product-service:8002" none).exit
        = some 1 ∧
      (∀ addr engine, Event.Run addr engine ∉
        (Gateway.mainWith URL.Parse "http://user-service:8001" "://product-service:8002"
          none).events) ∧
      (Gateway.mainWith URL.Parse "http://user-service:8001" "://product-service:8002"
        none).served = none ∧
      ∀ w req,
        (Gateway.mainWith URL.Parse "http://user-service:8001" "://product-service:8002"
          none).answer w req = none :=
  malformed_target_is_fatal URL.Parse "http://user-service:8001" "://product-service:8002" none
    (Or.inr ⟨"missing protocol scheme", rfl⟩)

/-! ### Static configuration -/

/-- C10. For each backend: the target the gateway registers for the backend's
route parses, the gateway routes the backend's path to the proxy of that
target, and the target has the host and port of the backend's registration
record; the
health-check URL of the record parses to the same host and port with the path
`/health`; the backend's engine has a handler for `GET /health`; and the port
the backend's `main` binds is the port of the record. -/
theorem static_configuration_consistent (b : Backend) :
    (∃ target,
      URL.Parse (Gateway.target b) = .ok target ∧
      (Gateway.main none).routed { Method := "GET", URL := { Path := b.route } }
        = some (.handler (.proxy target)) ∧
      target.hostPort = some (b.registration.Address, b.registration.Port)) ∧
    (∃ check,
      URL.Parse b.registration.Check.HTTP = .ok check ∧
      check.hostPort = some (b.registration.Address, b.registration.Port) ∧
      check.Path = "/health") ∧
    (∃ code obj, b.engine.handleHTTPRequest healthRequest = .handler (.json code obj)) ∧
    ((b.main {}).bound.bind listenPort = some b.registration.Port) := by
  cases b
  · exact ⟨⟨{ Scheme := "http", Host := "user-service:8001" }, rfl, rfl, by decide⟩,
      ⟨{ Scheme := "http", Host := "user-service:8001", Path := "/health" }, rfl, by decide, rfl⟩,
      ⟨200, [("status", "up")], rfl⟩, by decide⟩
  · exact ⟨⟨{ Scheme := "http", Host := "product-service:8002" }, rfl, rfl, by decide⟩,
      ⟨{ Scheme := "http", Host := "product-service:8002", Path := "/health" }, rfl, by decide,
        rfl⟩,
      ⟨200, [("status", "product-service up")], rfl⟩, by decide⟩

/-! ### Header lemmas -/

namespace Header

theorem values_Del (h : Header) (k key : String) (hne : key ≠ CanonicalMIMEHeaderKey k) :
    (Del h k).values key = h.values key := by
  unfold Del values
  congr 1
  rw [List.find?_filter]
  congr 1
  funext kv
  by_cases hk : kv.1 = key
  · have : kv.1 ≠ CanonicalMIMEHeaderKey k := fun e => hne (hk ▸ e)
    simp [hk, this]
    exact hne
  · simp [hk]

theorem values_foldl_Del (ks : List String) (h : Header) (key : String)
    (hne : ∀ k ∈ ks, key ≠ CanonicalMIMEHeaderKey k) :
    (ks.foldl Del h).values key = h.values key := by
  induction ks generalizing h with
  | nil => rfl
  | cons k ks ih =>
    rw [List.foldl_cons, ih _ (fun k' hk' => hne k' (List.mem_cons_of_mem _ hk')),
      values_Del _ _ _ (hne k (List.mem_cons_self _ _))]

theorem values_Set (h : Header) (k v key : String) (hne : key ≠ CanonicalMIMEHeaderKey k) :
    (Set h k v).values key = h.values key := by
  have := values_Del h k key hne
  unfold Set
  unfold values at *
  rw [List.find?_cons]
  have hk : ¬ (CanonicalMIMEHeaderKey k = key) := fun e => hne e.symm
  simp only [hk, decide_False]
  exact this

theorem values_Set_self (h : Header) (k v : String) :
    (Set h k v).values (CanonicalMIMEHeaderKey k) = some [v] := by
  simp [Set, values, List.find?_cons]

end Header

namespace httputil

theorem hopHeaders_canonical : ∀ k ∈ hopHeaders, CanonicalMIMEHeaderKey k = k := by decide

theorem values_removeHopByHopHeaders (h : Header) (key : String) (h1 : key ∉ hopHeaders)
    (h2 : key ∉ (connectionTokens h).map CanonicalMIMEHeaderKey) :
    (removeHopByHopHeaders h).values key = h.values key := by
  unfold removeHopByHopHeaders
  rw [Header.values_foldl_Del, Header.values_foldl_Del]
  · intro k hk e
    exact h2 (List.mem_map.2 ⟨k, hk, e.symm⟩)
  · intro k hk e
    rw [hopHeaders_canonical k hk] at e
    exact h1 (e ▸ hk)

/-- The header before the forwarding steps: the hop-by-hop headers stripped,
the trailer announcement and the protocol switch put back. -/
theorem values_switched (req : Request) (h : Header) (key : String) (h1 : key ∉ hopHeaders)
    (h2 : key ∉ (connectionTokens h).map CanonicalMIMEHeaderKey) :
    ∃ h3 : Header, outboundHeader req h = userAgent (forwardedFor req.RemoteAddr h3) ∧
      h3.values key = h.values key := by
  have cTe : CanonicalMIMEHeaderKey "Te" = "Te" := by decide
  have cCo : CanonicalMIMEHeaderKey "Connection" = "Connection" := by decide
  have cUp : CanonicalMIMEHeaderKey "Upgrade" = "Upgrade" := by decide
  have nTe : key ≠ "Te" := fun e => h1 (by rw [e]; decide)
  have nCo : key ≠ "Connection" := fun e => h1 (by rw [e]; decide)
  have nUp : key ≠ "Upgrade" := fun e => h1 (by rw [e]; decide)
  refine ⟨_, rfl, ?_⟩
  have r := values_removeHopByHopHeaders h key h1 h2
  have t : ∀ g : Header,
      (if HeaderValuesContainsToken ((req.Header.values "Te").getD []) "trailers" = true then
        g.Set "Te" "trailers" else g).values key = g.values key := by
    intro g
    split
    · exact Header.values_Set _ _ _ _ (by rw [cTe]; exact nTe)
    · rfl
  have u : ∀ g : Header,
      (if upgradeType h ≠ "" then (g.Set "Connection" "Upgrade").Set "Upgrade" (upgradeType h)
        else g).values key = g.values key := by
    intro g
    split
    · rw [Header.values_Set _ _ _ _ (by rw [cUp]; exact nUp),
        Header.values_Set _ _ _ _ (by rw [cCo]; exact nCo)]
    · rfl
  rw [u, t, r]

theorem values_userAgent_ne (h : Header) (key : String) (hk : key ≠ "User-Agent") :
    (userAgent h).values key = h.values key := by
  unfold userAgent
  have c : CanonicalMIMEHeaderKey "User-Agent" = "User-Agent" := by decide
  split
  · rfl
  · exact Header.values_Set _ _ _ _ (by rw [c]; exact hk)

theorem values_forwardedFor_ne (ra : String) (h : Header) (key : String)
    (hk : key ≠ "X-Forwarded-For") : (forwardedFor ra h).values key = h.values key := by
  unfold forwardedFor
  have c : CanonicalMIMEHeaderKey "X-Forwarded-For" = "X-Forwarded-For" := by decide
  split
  · rfl
  · split
    · rfl
    · exact Header.values_Set _ _ _ _ (by rw [c]; exact hk)
    · exact Header.values_Set _ _ _ _ (by rw [c]; exact hk)

/-- Frame of the outbound header. -/
theorem outbound_header (req : Request) (h : Header) (key : String)
    (h1 : key ∉ hopHeaders) (h2 : key ∉ (connectionTokens h).map CanonicalMIMEHeaderKey)
    (h3 : key ≠ "X-Forwarded-For") (h4 : key ≠ "User-Agent") :
    (outboundHeader req h).values key = h.values key := by
  obtain ⟨g, hg, hv⟩ := values_switched req h key h1 h2
  rw [hg, values_userAgent_ne _ _ h4, values_forwardedFor_ne _ _ _ h3, hv]

/-- The `X-Forwarded-For` header of the outbound request. -/
theorem outbound_forwardedFor (req : Request) (h : Header) (ip : String)
    (hip : SplitHostPort req.RemoteAddr = some ip)
    (h2 : "X-Forwarded-For" ∉ (connectionTokens h).map CanonicalMIMEHeaderKey) :
    (h.values "X-Forwarded-For" = none →
      (outboundHeader req h).values "X-Forwarded-For" = some [ip]) ∧
    (∀ p ps, h.values "X-Forwarded-For" = some (p :: ps) →
      (outboundHeader req h).values "X-Forwarded-For"
        = some [", ".intercalate (p :: ps) ++ ", " ++ ip]) := by
  obtain ⟨g, hg, hv⟩ := values_switched req h "X-Forwarded-For" (by decide) h2
  have c : CanonicalMIMEHeaderKey "X-Forwarded-For" = "X-Forwarded-For" := by decide
  have s := Header.values_Set_self
  rw [hg, values_userAgent_ne _ _ (by decide)]
  constructor
  · intro hn
    rw [← hv] at hn
    unfold forwardedFor
    rw [hip]
    simp only [hn]
    have := s g "X-Forwarded-For" ip
    rwa [c] at this
  · intro p ps hn
    rw [← hv] at hn
    unfold forwardedFor
    rw [hip]
    simp only [hn]
    have := s g "X-Forwarded-For" (", ".intercalate (p :: ps) ++ ", " ++ ip)
    rwa [c] at this

/-- The `User-Agent` header of the outbound request. -/
theorem outbound_userAgent (req : Request) (h : Header)
    (h2 : "User-Agent" ∉ (connectionTokens h).map CanonicalMIMEHeaderKey) :
    (h.values "User-Agent" = none → (outboundHeader req h).values "User-Agent" = some [""]) ∧
    (∀ v, h.values "User-Agent" = some v →
      (outboundHeader req h).values "User-Agent" = some v) := by
  obtain ⟨g, hg, hv⟩ := values_switched req h "User-Agent" (by decide) h2
  have c : CanonicalMIMEHeaderKey "User-Agent" = "User-Agent" := by decide
  have f := values_forwardedFor_ne req.RemoteAddr g "User-Agent" (by decide)
  rw [hg]
  constructor
  · intro hn
    rw [← hv, ← f] at hn
    unfold userAgent
    simp only [hn]
    have := Header.values_Set_self (forwardedFor req.RemoteAddr g) "User-Agent" ""
    rwa [c] at this
  · intro v hn
    rw [← hv, ← f] at hn
    unfold userAgent
    simp only [hn]

end httputil

/-! ### Transport and server lemmas -/

namespace http

theorem serve_of_intercept_none (handler : Request → Exchange) (r : Request)
    (h : intercept r = none) : serve handler r = handler r := by
  simp [serve, h]

theorem intercept_none (r : Request) (hx : expectationFailed r = false)
    (hp : Str.hasPrefix r.URL.Path "/" = true) : intercept r = none := by
  have : r.URL.Path ≠ "*" := by
    intro e
    rw [e] at hp
    exact absurd hp (by decide)
  simp [intercept, hx, this]

end http

namespace httputil

/-- With a printable protocol name, `ServeHTTP` hands the outbound request to the
transport once; an error of the round trip gives 502. -/
theorem ServeHTTP_upstream (director : Request → Request) (w : World) (req : Request)
    (hu : IsPrint (upgradeType (director req).Header) = true) :
    (ServeHTTP director w req).upstream = [outbound director req] ∧
      (ServeHTTP director w req).tries = (http.roundTrip w.dial w.idle (outbound director req)).2 ∧
      (∀ err, (http.roundTrip w.dial w.idle (outbound director req)).1 = .error err →
        (ServeHTTP director w req).response.StatusCode = 502) := by
  unfold ServeHTTP
  simp only [hu, Bool.not_true, Bool.false_eq_true, if_false]
  rcases hrt : http.roundTrip w.dial w.idle (outbound director req) with ⟨res, n⟩
  cases res with
  | error e => simp
  | ok res =>
    simp only
    refine ⟨?_, ?_, ?_⟩
    · split
      · split <;> rfl
      · rfl
    · split
      · split <;> rfl
      · rfl
    · intro err h
      simp at h

end httputil

/-! ### Gateway lemmas -/

namespace Gateway

theorem answer_of_routed (x : Execution) (w : World) (req : Request) (r : gin.Routed)
    (hx : http.intercept req = none) (h : x.routed req = some r) :
    x.answer w req = some (r.run w req) := by
  unfold Execution.routed at h
  unfold Execution.answer gin.Engine.ServeHTTP
  cases hs : x.served with
  | none => simp [hs] at h
  | some e =>
    simp only [hs, Option.map_some', Option.some.injEq] at h ⊢
    rw [http.serve_of_intercept_none _ _ hx, h]

theorem answer_of_intercept (ran : Option String) (w : World) (req : Request) (res : Response)
    (hx : http.intercept req = some res) :
    (Gateway.main ran).answer w req = some { response := res } := by
  simp [Execution.answer, served_main, http.serve, hx]

theorem singleJoiningSlash_empty (path : String) (h : Str.hasPrefix path "/" = true) :
    httputil.singleJoiningSlash "" path = path := by
  have e : Str.hasSuffix "" "/" = false := by decide
  simp only [httputil.singleJoiningSlash, e, h]
  simp [String.ext_iff]

theorem hasPrefix_slash_of_route (b : Backend) (rest : String) :
    Str.hasPrefix (b.route ++ rest) "/" = true := by
  cases b <;> simp [Str.hasPrefix, Backend.route]

theorem hasPrefix_trans_slash (path l : String) (hl : Str.hasPrefix l "/" = true)
    (h : Str.hasPrefix path l = true) : Str.hasPrefix path "/" = true := by
  unfold Str.hasPrefix at *
  simp only [List.isPrefixOf_iff_prefix] at *
  exact hl.trans h

/-- A request routed to a proxy has a path under one of the two routes, and
the proxy's target is the parsed target of that route. -/
theorem proxy_of_routed (ran : Option String) (req : Request) (target : URL)
    (h : (Gateway.main ran).routed req = some (.handler (.proxy target))) :
    Str.hasPrefix req.URL.Path "/" = true ∧ target.Path = "" ∧ target.RawQuery = "" := by
  rw [routed_main] at h
  simp only [Option.some.injEq] at h
  split_ifs at h with a b c d e
  · simp only [gin.Routed.handler.injEq, gin.HandlerFunc.proxy.injEq] at h
    subst h
    exact ⟨hasPrefix_trans_slash _ "/users/" (by decide) b, rfl, rfl⟩
  · simp only [gin.Routed.handler.injEq, gin.HandlerFunc.proxy.injEq] at h
    subst h
    exact ⟨hasPrefix_trans_slash _ "/products/" (by decide) c, rfl, rfl⟩
  · simp at h

/-- The answer to a request that reaches a proxy handler with a printable
protocol name: the outbound request is handed to the transport once. -/
theorem answer_proxied (ran : Option String) (w : World) (req : Request) (target : URL)
    (hr : (Gateway.main ran).routed req = some (.handler (.proxy target)))
    (hx : http.expectationFailed req = false)
    (hu : httputil.IsPrint (httputil.upgradeType req.Header) = true) :
    ∃ ex, (Gateway.main ran).answer w req = some ex ∧
      ex.upstream = [httputil.outbound (Gateway.director target) req] ∧
      ex.tries = (http.roundTrip w.dial w.idle
        (httputil.outbound (Gateway.director target) req)).2 ∧
      (∀ err, (http.roundTrip w.dial w.idle
          (httputil.outbound (Gateway.director target) req)).1 = .error err →
        ex.response.StatusCode = 502) := by
  have hp := (proxy_of_routed ran req target hr).1
  refine ⟨_, answer_of_routed _ w req _ (http.intercept_none req hx hp) hr, ?_⟩
  exact httputil.ServeHTTP_upstream (Gateway.director target) w req hu

end Gateway

/-! ### Gateway request path -/

/-- C3, refuted as stated: `GET /users/42` from 10.0.0.7 with the headers
`Accept`, `Connection: keep-alive` and `X-Forwarded-For: 192.0.2.1` is routed
to the user proxy, and the one outbound request has no `Connection` header
and the header `X-Forwarded-For: 192.0.2.1, 10.0.0.7`, unlike the inbound
request.  Moreover, for `GET /users/42` asking to switch to a protocol whose
name holds a tab, and for `GET /users/42` with the header `Expect: foo`, both
of which the router sends to the user proxy, no outbound request is built at
all. -/
theorem outbound_headers_differ :
    (Gateway.main none).routed keepAliveRequest
        = some (.handler (.proxy { Scheme := "http", Host := "user-service:8001" })) ∧
      ((Gateway.main none).answer World.unreachable keepAliveRequest).map
          (fun ex => ex.upstream.map fun out =>
            (out.Header.values "Connection", out.Header.values "X-Forwarded-For"))
        = some [(none, some ["192.0.2.1, 10.0.0.7"])] ∧
      (keepAliveRequest.Header.values "Connection",
        keepAliveRequest.Header.values "X-Forwarded-For")
        = (some ["keep-alive"], some ["192.0.2.1"]) ∧
      (Gateway.main none).routed switchRequest
        = some (.handler (.proxy { Scheme := "http", Host := "user-service:8001" })) ∧
      ((Gateway.main none).answer World.unreachable switchRequest).map
          (fun ex => (ex.response.StatusCode, ex.upstream)) = some (502, []) ∧
      (Gateway.main none).routed expectRequest
        = some (.handler (.proxy { Scheme := "http", Host := "user-service:8001" })) ∧
      ((Gateway.main none).answer World.unreachable expectRequest).map
          (fun ex => (ex.response.StatusCode, ex.upstream)) = some (417, []) := by
  refine ⟨rfl, rfl, rfl, rfl, rfl, rfl, rfl⟩

/-- C3, amended. For every request the gateway's router sends to a proxy, without
unsupported `Expect` header and without a protocol switch to a name that is
not printable, exactly one request is handed to the transport.  Its URL
scheme and host and its `Host` are those of the proxy's target; its method,
path, query and body are those of the inbound request.  Every header that is
not hop-by-hop, not named in the inbound `Connection` header, and neither
`X-Forwarded-For` nor `User-Agent` has the inbound values.  Unless
`Connection` names them: `X-Forwarded-For` is the client address when the
inbound request has none, and the inbound values joined by a comma and a
space, then the client address, when it has some; `User-Agent` is the empty
string when the inbound request has none, and the inbound one otherwise. -/
theorem outbound_request_frame (ran : Option String) (w : World) (req : Request) (target : URL)
    (hr : (Gateway.main ran).routed req = some (.handler (.proxy target)))
    (hx : http.expectationFailed req = false)
    (hu : httputil.IsPrint (httputil.upgradeType req.Header) = true) :
    ∃ ex out, (Gateway.main ran).answer w req = some ex ∧ ex.upstream = [out] ∧
      out.URL.Scheme = target.Scheme ∧ out.URL.Host = target.Host ∧ out.Host = target.Host ∧
      out.Method = req.Method ∧ out.URL.Path = req.URL.Path ∧
      out.URL.RawQuery = req.URL.RawQuery ∧ out.Body = req.Body ∧
      (∀ key, key ∉ httputil.hopHeaders →
        key ∉ (httputil.connectionTokens req.Header).map CanonicalMIMEHeaderKey →
        key ≠ "X-Forwarded-For" → key ≠ "User-Agent" →
        out.Header.values key = req.Header.values key) ∧
      (∀ ip, SplitHostPort req.RemoteAddr = some ip →
        "X-Forwarded-For" ∉ (httputil.connectionTokens req.Header).map CanonicalMIMEHeaderKey →
        (req.Header.values "X-Forwarded-For" = none →
          out.Header.values "X-Forwarded-For" = some [ip]) ∧
        (∀ p ps, req.Header.values "X-Forwarded-For" = some (p :: ps) →
          out.Header.values "X-Forwarded-For"
            = some [", ".intercalate (p :: ps) ++ ", " ++ ip])) ∧
      ("User-Agent" ∉ (httputil.connectionTokens req.Header).map CanonicalMIMEHeaderKey →
        (req.Header.values "User-Agent" = none → out.Header.values "User-Agent" = some [""]) ∧
        (∀ v, req.Header.values "User-Agent" = some v →
          out.Header.values "User-Agent" = some v)) := by
  obtain ⟨hp, ht, hq⟩ := Gateway.proxy_of_routed ran req target hr
  obtain ⟨ex, ha, hup, -, -⟩ := Gateway.answer_proxied ran w req target hr hx hu
  refine ⟨ex, httputil.outbound (Gateway.director target) req, ha, hup, rfl, rfl, rfl, rfl,
    ?_, ?_, rfl, ?_, ?_, ?_⟩
  · show httputil.singleJoiningSlash target.Path req.URL.Path = req.URL.Path
    rw [ht]
    exact Gateway.singleJoiningSlash_empty _ hp
  · show (if target.RawQuery = "" ∨ req.URL.RawQuery = "" then target.RawQuery ++ req.URL.RawQuery
      else target.RawQuery ++ "&" ++ req.URL.RawQuery) = req.URL.RawQuery
    rw [hq]
    simp [String.ext_iff]
  · intro key h1 h2 h3 h4
    exact httputil.outbound_header req req.Header key h1 h2 h3 h4
  · intro ip hip h2
    exact httputil.outbound_forwardedFor req req.Header ip hip h2
  · intro h2
    exact httputil.outbound_userAgent req req.Header h2

/-- C3 amended, at `GET /users/42` with `Connection: keep-alive` and an earlier
`X-Forwarded-For`. -/
theorem outbound_request_frame_witness :
    ∃ ex out, (Gateway.main none).answer World.unreachable keepAliveRequest = some ex ∧
      ex.upstream = [out] ∧
      out.URL.Scheme = "http" ∧ out.URL.Host = "user-service:8001" ∧
      out.Host = "user-service:8001" ∧
      out.Method = keepAliveRequest.Method ∧ out.URL.Path = keepAliveRequest.URL.Path ∧
      out.URL.RawQuery = keepAliveRequest.URL.RawQuery ∧ out.Body = keepAliveRequest.Body ∧
      (∀ key, key ∉ httputil.hopHeaders →
        key ∉ (httputil.connectionTokens keepAliveRequest.Header).map CanonicalMIMEHeaderKey →
        key ≠ "X-Forwarded-For" → key ≠ "User-Agent" →
        out.Header.values key = keepAliveRequest.Header.values key) ∧
      (∀ ip, SplitHostPort keepAliveRequest.RemoteAddr = some ip →
        "X-Forwarded-For" ∉
          (httputil.connectionTokens keepAliveRequest.Header).map CanonicalMIMEHeaderKey →
        (keepAliveRequest.Header.values "X-Forwarded-For" = none →
          out.Header.values "X-Forwarded-For" = some [ip]) ∧
        (∀ p ps, keepAliveRequest.Header.values "X-Forwarded-For" = some (p :: ps) →
          out.Header.values "X-Forwarded-For"
            = some [", ".intercalate (p :: ps) ++ ", " ++ ip])) ∧
      ("User-Agent" ∉
          (httputil.connectionTokens keepAliveRequest.Header).map CanonicalMIMEHeaderKey →
        (keepAliveRequest.Header.values "User-Agent" = none →
          out.Header.values "User-Agent" = some [""]) ∧
        (∀ v, keepAliveRequest.Header.values "User-Agent" = some v →
          out.Header.values "User-Agent" = some v)) :=
  outbound_request_frame none World.unreachable keepAliveRequest
    { Scheme := "http", Host := "user-service:8001" } rfl (by decide) (by decide)

/-- C1, refuted as stated: three requests whose path is under the user route
are not forwarded.  `PROPFIND /users/42` is answered 404, since `r.Any`
registers the route for nine methods only; `GET /users/42` with the header
`Expect: foo` is answered 417 by the server; `GET /users/42` asking to switch
to a protocol whose name holds a tab is answered 502 by the proxy before any
round trip. -/
theorem propfind_not_forwarded :
    propfindRequest.URL.Path = Backend.userService.route ++ "42" ∧
      ((Gateway.main none).answer World.unreachable propfindRequest).map
          (fun ex => (ex.response.StatusCode, ex.upstream)) = some (404, []) ∧
      expectRequest.URL.Path = Backend.userService.route ++ "42" ∧
      ((Gateway.main none).answer World.unreachable expectRequest).map
          (fun ex => (ex.response.StatusCode, ex.upstream)) = some (417, []) ∧
      switchRequest.URL.Path = Backend.userService.route ++ "42" ∧
      ((Gateway.main none).answer World.unreachable switchRequest).map
          (fun ex => (ex.response.StatusCode, ex.upstream)) = some (502, []) :=
  ⟨by decide, rfl, by decide, rfl, by decide, rfl⟩

/-- C1, amended. For each backend and every request with one of the nine methods
of `r.Any`, without unsupported `Expect` header and without a protocol switch
to a name that is not printable, whose path is the backend's route followed
by any string: exactly one request is handed to the transport, for the
scheme and host of the target `main` registers for that route, and its path
is the inbound path. -/
theorem forwarded_to_registered_backend (b : Backend) (ran : Option String) (w : World)
    (req : Request) (rest : String)
    (hm : req.Method ∈ gin.Engine.anyMethods) (hp : req.URL.Path = b.route ++ rest)
    (hx : http.expectationFailed req = false)
    (hu : httputil.IsPrint (httputil.upgradeType req.Header) = true) :
    ∃ target ex out, URL.Parse (Gateway.target b) = .ok target ∧
      (Gateway.main ran).answer w req = some ex ∧ ex.upstream = [out] ∧
      out.URL.Scheme = target.Scheme ∧ out.URL.Host = target.Host ∧
      out.URL.Path = req.URL.Path := by
  have hslash : Str.hasPrefix req.URL.Path "/" = true := by
    rw [hp]; exact Gateway.hasPrefix_slash_of_route b rest
  have key : ∀ target : URL, target.Path = "" →
      (Gateway.main ran).routed req = some (.handler (.proxy target)) →
      ∃ ex out, (Gateway.main ran).answer w req = some ex ∧ ex.upstream = [out] ∧
        out.URL.Scheme = target.Scheme ∧ out.URL.Host = target.Host ∧
        out.URL.Path = req.URL.Path := by
    intro target ht hr
    obtain ⟨ex, ha, hup, -, -⟩ := Gateway.answer_proxied ran w req target hr hx hu
    refine ⟨ex, httputil.outbound (Gateway.director target) req, ha, hup, rfl, rfl, ?_⟩
    show httputil.singleJoiningSlash target.Path req.URL.Path = req.URL.Path
    rw [ht]
    exact Gateway.singleJoiningSlash_empty _ hslash
  cases b
  · refine ⟨{ Scheme := "http", Host := "user-service:8001" }, ?_⟩
    have hu : Str.hasPrefix req.URL.Path "/users/" = true := by
      rw [hp]; simp [Str.hasPrefix, Backend.route]
    obtain ⟨ex, out, h⟩ := key { Scheme := "http", Host := "user-service:8001" } rfl
      (by rw [Gateway.routed_main, if_pos hm, if_pos hu])
    exact ⟨ex, out, rfl, h⟩
  · refine ⟨{ Scheme := "http", Host := "product-service:8002" }, ?_⟩
    have hu : ¬ Str.hasPrefix req.URL.Path "/users/" = true := by
      rw [hp]; simp [Str.hasPrefix, Backend.route]
    have hq : Str.hasPrefix req.URL.Path "/products/" = true := by
      rw [hp]; simp [Str.hasPrefix, Backend.route]
    obtain ⟨ex, out, h⟩ := key { Scheme := "http", Host := "product-service:8002" } rfl
      (by rw [Gateway.routed_main, if_pos hm, if_neg hu, if_pos hq])
    exact ⟨ex, out, rfl, h⟩

/-- C1 amended, at `DELETE /products/7?force=1`. -/
theorem forwarded_to_registered_backend_witness :
    ∃ target ex out, URL.Parse (Gateway.target .productService) = .ok target ∧
      (Gateway.main none).answer World.unreachable
        { Method := "DELETE", URL := { Path := "/products/7", RawQuery := "force=1" } }
        = some ex ∧ ex.upstream = [out] ∧
      out.URL.Scheme = target.Scheme ∧ out.URL.Host = target.Host ∧
      out.URL.Path =
        ({ Method := "DELETE", URL := { Path := "/products/7", RawQuery := "force=1" } }
          : Request).URL.Path :=
  forwarded_to_registered_backend .productService none World.unreachable
    { Method := "DELETE", URL := { Path := "/products/7", RawQuery := "force=1" } } "7"
    (by decide) (by decide) (by decide) (by decide)

/-- C2, refuted as stated: three requests whose path has neither route as a
prefix and which are not `GET /health` are not answered with 404.  `GET
/users` is answered with the redirect 301; `OPTIONS *` is answered 200 by
the server; `GET /orders/1` with the header `Expect: foo` is answered 417 by
the server.  Nothing goes upstream. -/
theorem users_without_slash_redirected :
    (Str.hasPrefix usersRequest.URL.Path "/users/" = false ∧
      Str.hasPrefix usersRequest.URL.Path "/products/" = false ∧
      ¬ (usersRequest.Method = "GET" ∧ usersRequest.URL.Path = "/health") ∧
      ((Gateway.main none).answer World.unreachable usersRequest).map
          (fun ex => (ex.response.StatusCode, ex.upstream)) = some (301, [])) ∧
    (Str.hasPrefix optionsRequest.URL.Path "/users/" = false ∧
      Str.hasPrefix optionsRequest.URL.Path "/products/" = false ∧
      ¬ (optionsRequest.Method = "GET" ∧ optionsRequest.URL.Path = "/health") ∧
      ((Gateway.main none).answer World.unreachable optionsRequest).map
          (fun ex => (ex.response.StatusCode, ex.upstream)) = some (200, [])) ∧
    (Str.hasPrefix ordersExpectRequest.URL.Path "/users/" = false ∧
      Str.hasPrefix ordersExpectRequest.URL.Path "/products/" = false ∧
      ¬ (ordersExpectRequest.Method = "GET" ∧ ordersExpectRequest.URL.Path = "/health") ∧
      ((Gateway.main none).answer World.unreachable ordersExpectRequest).map
          (fun ex => (ex.response.StatusCode, ex.upstream)) = some (417, [])) :=
  ⟨⟨by decide, by decide, by decide, rfl⟩, ⟨by decide, by decide, by decide, rfl⟩,
    ⟨by decide, by decide, by decide, rfl⟩⟩

/-- C2, amended. For every request whose path has neither `/users/` nor
`/products/` as a prefix and which is not `GET /health`, nothing goes
upstream, and the status of the answer is: 417 when the request has an
`Expect` header that does not ask for `100-continue`; otherwise 200 for
`OPTIONS *`; otherwise the trailing-slash redirect, 301 for GET and 307 for
another method, when the method is one of `r.Any` other than CONNECT and the
path is `/users`, `/products` or (with GET) `/health/`; otherwise 404. -/
theorem unrouted_request_not_forwarded (ran : Option String) (w : World) (req : Request)
    (h1 : Str.hasPrefix req.URL.Path "/users/" = false)
    (h2 : Str.hasPrefix req.URL.Path "/products/" = false)
    (h3 : ¬ (req.Method = "GET" ∧ req.URL.Path = "/health")) :
    ∃ ex, (Gateway.main ran).answer w req = some ex ∧ ex.upstream = [] ∧ ex.tries = 0 ∧
      ex.response.StatusCode =
        if http.expectationFailed req = true then 417
        else if req.Method = "OPTIONS" ∧ req.URL.Path = "*" then 200
        else if req.Method ∈ gin.Engine.anyMethods ∧ req.Method ≠ "CONNECT" ∧
            (req.URL.Path = "/users" ∨ req.URL.Path = "/products" ∨
              (req.Method = "GET" ∧ req.URL.Path = "/health/")) then
          (if req.Method = "GET" then 301 else 307)
        else 404 := by
  by_cases hx : http.expectationFailed req = true
  · have hi : http.intercept req
        = some { StatusCode := 417, Header := [("Connection", ["close"])] } := by
      simp [http.intercept, hx]
    refine ⟨_, Gateway.answer_of_intercept ran w req _ hi, rfl, rfl, ?_⟩
    rw [if_pos hx]
  · by_cases ho : req.Method = "OPTIONS" ∧ req.URL.Path = "*"
    · have hi : http.intercept req
          = some { StatusCode := 200, Header := [("Content-Length", ["0"])] } := by
        simp [http.intercept, hx, ho.1, ho.2]
      refine ⟨_, Gateway.answer_of_intercept ran w req _ hi, rfl, rfl, ?_⟩
      rw [if_neg hx, if_pos ho]
    · have hi : http.intercept req = none := by
        have : ¬ (req.URL.Path = "*" ∧ req.Method = "OPTIONS") := fun h => ho ⟨h.2, h.1⟩
        simp only [http.intercept, hx, this, if_false, Bool.false_eq_true]
      refine ⟨_, Gateway.answer_of_routed _ w req _ hi (Gateway.routed_main ran req), ?_⟩
      rw [if_neg hx, if_neg ho]
      simp only [h1, h2, h3, if_false, Bool.false_eq_true]
      by_cases hm : req.Method ∈ gin.Engine.anyMethods
      · by_cases hr : req.Method ≠ "CONNECT" ∧
            (req.URL.Path = "/users" ∨ req.URL.Path = "/products" ∨
              (req.Method = "GET" ∧ req.URL.Path = "/health/"))
        · rw [if_pos hm, if_pos hr, if_pos (And.intro hm hr)]
          exact ⟨rfl, rfl, rfl⟩
        · have hn : ¬ (req.Method ∈ gin.Engine.anyMethods ∧ req.Method ≠ "CONNECT" ∧
              (req.URL.Path = "/users" ∨ req.URL.Path = "/products" ∨
                (req.Method = "GET" ∧ req.URL.Path = "/health/"))) := fun h => hr h.2
          rw [if_pos hm, if_neg hr, if_neg hn]
          exact ⟨rfl, rfl, rfl⟩
      · have hn : ¬ (req.Method ∈ gin.Engine.anyMethods ∧ req.Method ≠ "CONNECT" ∧
            (req.URL.Path = "/users" ∨ req.URL.Path = "/products" ∨
              (req.Method = "GET" ∧ req.URL.Path = "/health/"))) := fun h => hm h.1
        rw [if_neg hm, if_neg hn]
        exact ⟨rfl, rfl, rfl⟩

/-- C2 amended, at `GET /orders/1`: status 404, nothing upstream. -/
theorem unrouted_request_not_forwarded_witness :
    ∃ ex, (Gateway.main none).answer World.unreachable ordersRequest = some ex ∧
      ex.upstream = [] ∧ ex.tries = 0 ∧
      ex.response.StatusCode =
        if http.expectationFailed ordersRequest = true then 417
        else if ordersRequest.Method = "OPTIONS" ∧ ordersRequest.URL.Path = "*" then 200
        else if ordersRequest.Method ∈ gin.Engine.anyMethods ∧
            ordersRequest.Method ≠ "CONNECT" ∧
            (ordersRequest.URL.Path = "/users" ∨ ordersRequest.URL.Path = "/products" ∨
              (ordersRequest.Method = "GET" ∧ ordersRequest.URL.Path = "/health/")) then
          (if ordersRequest.Method = "GET" then 301 else 307)
        else 404 :=
  unrouted_request_not_forwarded none World.unreachable ordersRequest
    (by decide) (by decide) (by decide)

end MicroService
